import Mathlib

set_option autoImplicit false

/-!
Verification of the SentimentQuant real-time WebSocket connection/broadcast
manager subsystem.  The repository contains two divergent implementations:

* `backend/app/websockets/manager.py` (`WebSocketManager`): registry keyed by
  client type and topic, a per-connection info map, a user-id index, an event
  handler table, topic broadcast and user-targeted sends.
* `backend/app/core/websocket_manager.py` (`ConnectionManager`): registry keyed
  by a client id, a sliding-window rate limiter, and a pub/sub forwarding task.

Both are embedded below.  Python dicts whose key order is never observed are
modelled as association lists or as finite sets of tuples; the dicts of sets
whose empty buckets are pruned on removal are modelled as sets of tuples (an
empty bucket and an absent key are then the same thing, which matches every
read the source performs on them).  Machine reals from `time.time()` are
modelled as rationals, which keeps the `str(now)` dict keys faithful: two
timestamps collide exactly when the underlying times are equal.
-/

namespace SentimentQuant

/-! ## JSON values and wire messages -/

/-- A JSON value, as produced by `json.loads` / consumed by `send_json`. -/
inductive JVal where
  | jNull
  | jBool (b : Bool)
  | jNum (n : Int)
  | jStr (s : String)
  | jArr (xs : List JVal)
  | jObj (fields : List (String × JVal))

/-- Field lookup in a JSON object, first match wins (Python dicts have unique
keys, so this is `dict.get`). -/
def jLookupField (key : String) : List (String × JVal) → Option JVal
  | [] => none
  | (k, v) :: rest => if k = key then some v else jLookupField key rest

/-- Models `event.get(key)`: `some` field value for an object that has it, `none`
otherwise. -/
def jGet (key : String) : JVal → Option JVal
  | .jObj fields => jLookupField key fields
  | _ => none

/-- A message handed to the transport: `send_text`, `send_bytes` or
`send_json`.  The managers branch on `isinstance(message, (str, bytes))`;
anything else is a dict and goes through `send_json`. -/
inductive WireMsg where
  | text (s : String)
  | binary (bs : List Nat)
  | json (v : JVal)

/-- Python exceptions observed by the embedded code paths. -/
inductive PyErr where
  | valueError (msg : String)
  | keyError
  | runtimeError
  | wsDisconnect
  | otherError
  | cancelledError
deriving DecidableEq

/-! ## `WebSocketManager` (backend/app/websockets/manager.py)

Connections are opaque transport handles, modelled as naturals.  The state
mirrors the four instance dicts of `WebSocketManager.__init__` plus two fields
recording effects on the transports themselves: which websockets have been
`accept`ed and which have been `close`d. -/

/-- The per-connection record stored in `self.connection_info[websocket]`. -/
structure ConnInfo where
  client_type : String
  topic : String
  user_id : Option String
  connected_at : Nat
deriving DecidableEq

/-- Lookup in the `connection_info` dict. -/
def infoLookup (ws : Nat) : List (Nat × ConnInfo) → Option ConnInfo
  | [] => none
  | (w, i) :: rest => if w = ws then some i else infoLookup ws rest

/-- Models `del connection_info[ws]` (no-op when absent, matching the guarded
call sites). -/
def infoErase (ws : Nat) : List (Nat × ConnInfo) → List (Nat × ConnInfo)
  | [] => []
  | (a, i) :: rest => if a = ws then infoErase ws rest else (a, i) :: infoErase ws rest

/-- Models `connection_info[ws] = i` (insert or overwrite). -/
def infoSet (ws : Nat) (i : ConnInfo) (l : List (Nat × ConnInfo)) : List (Nat × ConnInfo) :=
  (ws, i) :: infoErase ws l

/-- State of a `WebSocketManager` instance together with the transport-side
effects it has performed. -/
structure WMState where
  /-- Models `self.connections`: membership of websocket `ws` in the
  `connections[client_type][topic]` set is membership of the triple
  `(client_type, topic, ws)` here.  Empty buckets are pruned by the source,
  so a missing topic key and an empty set are indistinguishable. -/
  buckets : Finset (String × String × Nat)
  /-- Models `self.connection_info`. -/
  connection_info : List (Nat × ConnInfo)
  /-- Models `self.user_connections`: membership of `ws` in `user_connections[uid]`
  is membership of `(uid, ws)`. -/
  user_connections : Finset (String × Nat)
  /-- Websockets on which `accept()` has been awaited. -/
  accepted : Finset Nat
  /-- Websockets on which `close()` has been awaited. -/
  closed : Finset Nat
deriving DecidableEq

/-- The fresh manager built by `WebSocketManager.__init__`: the top-level
`connections` dict has exactly these three client-type keys and `connect`
never adds more. -/
def wmClientTypes : List String := ["sentiment", "trading", "portfolio"]

/-- A fresh `WebSocketManager` with no connections. -/
def wmEmpty : WMState :=
  { buckets := ∅, connection_info := [], user_connections := ∅,
    accepted := ∅, closed := ∅ }

/-- Models `WebSocketManager.connect`: validates the client type (raising
`ValueError` before anything else happens), then accepts the transport, adds
the websocket to the `(client_type, topic)` bucket, records its info and, when
a user id is given, indexes it under that user. -/
def wmConnect (s : WMState) (ws : Nat) (client_type topic : String)
    (user_id : Option String) (now : Nat) : Except PyErr WMState :=
  if client_type ∉ wmClientTypes then
    .error (.valueError client_type)
  else
    let s1 := { s with accepted := insert ws s.accepted }
    let s2 := { s1 with buckets := insert (client_type, topic, ws) s1.buckets }
    let s3 := { s2 with
      connection_info := infoSet ws ⟨client_type, topic, user_id, now⟩ s2.connection_info }
    match user_id with
    | some u => .ok { s3 with user_connections := insert (u, ws) s3.user_connections }
    | none => .ok s3

/-- Models `WebSocketManager.disconnect`: a no-op for a websocket with no
`connection_info` entry; otherwise removes the websocket from the bucket its
info records, from the user index when its info carries a user id, deletes the
info entry and closes the transport. -/
def wmDisconnect (s : WMState) (ws : Nat) : WMState :=
  match infoLookup ws s.connection_info with
  | none => s
  | some info =>
    let s1 := { s with buckets := s.buckets.erase (info.client_type, info.topic, ws) }
    let s2 :=
      match info.user_id with
      | some u => { s1 with user_connections := s1.user_connections.erase (u, ws) }
      | none => s1
    let s3 := { s2 with connection_info := infoErase ws s2.connection_info }
    { s3 with closed := insert ws s3.closed }

/-- The snapshot `self.connections[client_type][topic]` that `broadcast`
copies: all websockets registered under the pair. -/
def wmBucket (s : WMState) (client_type topic : String) : Finset Nat :=
  (s.buckets.filter (fun e => e.1 = client_type ∧ e.2.1 = topic)).image (fun e => e.2.2)

theorem mem_wmBucket (s : WMState) (ct t : String) (ws : Nat) :
    ws ∈ wmBucket s ct t ↔ (ct, t, ws) ∈ s.buckets := by
  constructor
  · intro h
    rcases Finset.mem_image.mp h with ⟨e, he, hrw⟩
    rcases Finset.mem_filter.mp he with ⟨hmem, hct, ht⟩
    have : e = (ct, t, ws) := by
      rcases e with ⟨a, b, c⟩
      simp only at hct ht hrw
      simp [hct, ht, hrw]
    rwa [this] at hmem
  · intro h
    exact Finset.mem_image.mpr ⟨(ct, t, ws), Finset.mem_filter.mpr ⟨h, by simp⟩, rfl⟩

/-- Convenience: whether an `Except` result is a success. -/
def exceptOk {ε α : Type} : Except ε α → Bool
  | .ok _ => true
  | .error _ => false

instance {ε α : Type} [DecidableEq ε] [DecidableEq α] : DecidableEq (Except ε α) := fun x y =>
  match x, y with
  | .ok a, .ok b => if h : a = b then .isTrue (by simp [h]) else .isFalse (by simp [h])
  | .error a, .error b => if h : a = b then .isTrue (by simp [h]) else .isFalse (by simp [h])
  | .ok _, .error _ => .isFalse (by simp)
  | .error _, .ok _ => .isFalse (by simp)

/-- C8: `register` raises `InvalidClientType` exactly when the given
client_type is not one of the recognized categories sentiment, trading,
portfolio, combined; for every client_type in that enum, registration with a
valid transport does not fail with `InvalidClientType`.  This fails on the
code: `WebSocketManager.__init__` creates buckets only for sentiment, trading
and portfolio, so `connect` with the client type "combined" — which the
endpoint `/ws/combined/(symbol)` passes — always raises `ValueError`, while
the three types the dict does contain are accepted. -/
theorem wm_connect_combined_rejected :
    wmConnect wmEmpty 1 "combined" "AAPL" none 0 = .error (.valueError "combined")
    ∧ exceptOk (wmConnect wmEmpty 1 "sentiment" "AAPL" none 0) = true
    ∧ exceptOk (wmConnect wmEmpty 1 "trading" "AAPL" none 0) = true
    ∧ exceptOk (wmConnect wmEmpty 1 "portfolio" "AAPL" none 0) = true := by
  decide

/-- C10: registering with an unrecognized client type fails atomically: the
`ValueError` is raised by the very first statement of `connect`, before
`websocket.accept()` and before any registry mutation, so the registry
indices, the info map and the user index are unchanged and the transport is
never accepted. -/
theorem wm_connect_invalid_type_atomic (s : WMState) (ws : Nat)
    (client_type topic : String) (user_id : Option String) (now : Nat)
    (h : client_type ∉ wmClientTypes) :
    wmConnect s ws client_type topic user_id now = .error (.valueError client_type)
    ∧ ∀ s2, wmConnect s ws client_type topic user_id now = .ok s2 → False := by
  refine ⟨?_, ?_⟩
  · simp [wmConnect, h]
  · intro s2 hok
    simp [wmConnect, h] at hok

/-- Concrete instance of `wm_connect_invalid_type_atomic` at the client type
"stream", which is not one of the three recognized keys. -/
theorem wm_connect_invalid_type_atomic_witness :
    ("stream" ∉ wmClientTypes)
    ∧ (wmConnect wmEmpty 3 "stream" "AAPL" (some "u1") 5 = .error (.valueError "stream")
       ∧ ∀ s2, wmConnect wmEmpty 3 "stream" "AAPL" (some "u1") 5 = .ok s2 → False) :=
  ⟨by decide, wm_connect_invalid_type_atomic wmEmpty 3 "stream" "AAPL" (some "u1") 5 (by decide)⟩

/-! ## Broadcast dispatcher (`WebSocketManager.broadcast` and friends)

`broadcast` copies the bucket and iterates it, wrapping every send in
`try/except`; a failed send logs and calls `disconnect` on that websocket.
Python set iteration order is unspecified, so the loop takes the enumeration
of the snapshot as an explicit `order` list.  The send environment
`sendFails ws = true` models `await websocket.send_*` raising on `ws`. -/

/-- The envelope preparation at the top of `broadcast`: a message that is not
already a str or bytes is a dict and gets wrapped with type, topic, data and
timestamp fields. -/
def wmPrepare (client_type topic : String) (msg : WireMsg) (ts : String) : WireMsg :=
  match msg with
  | .json v => .json (.jObj [("type", .jStr client_type), ("topic", .jStr topic),
      ("data", v), ("timestamp", .jStr ts)])
  | m => m

/-- The send loop shared by `broadcast` and `send_to_user`: iterate the
snapshot, send to each websocket, and on a raised send call `disconnect` on
that websocket and continue with the rest.  Returns the final state and the
websockets that were sent to successfully. -/
def wmBroadcastLoop (sendFails : Nat → Bool) : WMState → List Nat → WMState × List Nat
  | s, [] => (s, [])
  | s, ws :: rest =>
    if sendFails ws then wmBroadcastLoop sendFails (wmDisconnect s ws) rest
    else
      let r := wmBroadcastLoop sendFails s rest
      (r.1, ws :: r.2)

/-- Models `WebSocketManager.broadcast`: returns immediately when the
`(client_type, topic)` bucket is absent, otherwise prepares the envelope,
copies the bucket and runs the send loop over the copy. -/
def wmBroadcast (sendFails : Nat → Bool) (s : WMState) (client_type topic : String)
    (msg : WireMsg) (ts : String) (order : List Nat) : WMState × List (Nat × WireMsg) :=
  if wmBucket s client_type topic = ∅ then (s, [])
  else
    let m := wmPrepare client_type topic msg ts
    let r := wmBroadcastLoop sendFails s order
    (r.1, r.2.map (fun w => (w, m)))

theorem wmBroadcastLoop_no_failure (sendFails : Nat → Bool) (s : WMState) (l : List Nat)
    (h : ∀ w ∈ l, sendFails w = false) :
    wmBroadcastLoop sendFails s l = (s, l) := by
  induction l with
  | nil => rfl
  | cons w rest ih =>
    have hw := h w (List.mem_cons_self w rest)
    simp [wmBroadcastLoop, hw, ih (fun x hx => h x (List.mem_cons_of_mem _ hx))]

theorem wmBroadcastLoop_single_failure (sendFails : Nat → Bool) (k : Nat) :
    ∀ (l : List Nat) (s : WMState), l.Nodup → k ∈ l →
      (∀ w ∈ l, sendFails w = true ↔ w = k) →
      wmBroadcastLoop sendFails s l = (wmDisconnect s k, l.erase k) := by
  intro l
  induction l with
  | nil => intro s _ hk _; cases hk
  | cons w rest ih =>
    intro s hnd hk hf
    by_cases hw : w = k
    · subst hw
      have hfw : sendFails w = true := (hf w (List.mem_cons_self w rest)).mpr rfl
      have hrest : ∀ x ∈ rest, sendFails x = false := by
        intro x hx
        have hxk : x ≠ w := fun he => (List.nodup_cons.mp hnd).1 (he ▸ hx)
        cases hsx : sendFails x with
        | false => rfl
        | true => exact absurd ((hf x (List.mem_cons_of_mem _ hx)).mp hsx) hxk
      simp [wmBroadcastLoop, hfw,
        wmBroadcastLoop_no_failure sendFails _ rest hrest, List.erase_cons_head]
    · have hfw : sendFails w = false := by
        cases hsw : sendFails w with
        | false => rfl
        | true => exact absurd ((hf w (List.mem_cons_self w rest)).mp hsw) hw
      have hk2 : k ∈ rest := by
        rcases List.mem_cons.mp hk with h | h
        · exact absurd h.symm hw
        · exact h
      have hrec := ih s (List.nodup_cons.mp hnd).2 hk2
        (fun x hx => hf x (List.mem_cons_of_mem _ hx))
      have herase : (w :: rest).erase k = w :: rest.erase k :=
        List.erase_cons_tail (by simpa using hw)
      simp [wmBroadcastLoop, hfw, hrec, herase]

/-- C1: broadcasting to a topic bucket of N registered connections in which
exactly one connection's send raises delivers the prepared envelope to all
N−1 other connections, leaves the final state equal to `disconnect` applied
to exactly the failing connection (so exactly that connection is removed from
the registry bucket), and the failure never aborts delivery to the rest.
This is `WebSocketManager.broadcast`, which iterates a snapshot copy and
wraps each send in its own try/except; the other implementation,
`ConnectionManager.broadcast`, violates the claim (see
`cm_broadcast_failure_aborts_delivery`). -/
theorem wm_broadcast_partial_failure (sendFails : Nat → Bool) (s : WMState)
    (ct t : String) (msg : WireMsg) (ts : String) (order : List Nat) (k : Nat) (i : ConnInfo)
    (hnd : order.Nodup)
    (hset : order.toFinset = wmBucket s ct t)
    (hk : k ∈ wmBucket s ct t)
    (hfail : ∀ w ∈ wmBucket s ct t, sendFails w = true ↔ w = k)
    (hinfo : infoLookup k s.connection_info = some i)
    (hct : i.client_type = ct) (ht : i.topic = t) :
    (wmBroadcast sendFails s ct t msg ts order).2
        = (order.erase k).map (fun w => (w, wmPrepare ct t msg ts))
    ∧ (∀ w ∈ wmBucket s ct t, w ≠ k →
        (w, wmPrepare ct t msg ts) ∈ (wmBroadcast sendFails s ct t msg ts order).2)
    ∧ (wmBroadcast sendFails s ct t msg ts order).1 = wmDisconnect s k
    ∧ (wmBroadcast sendFails s ct t msg ts order).1.buckets = s.buckets.erase (ct, t, k) := by
  have hne : wmBucket s ct t ≠ ∅ := Finset.ne_empty_of_mem hk
  have hkord : k ∈ order := by
    rw [← List.mem_toFinset, hset]; exact hk
  have hford : ∀ w ∈ order, sendFails w = true ↔ w = k := by
    intro w hwo
    exact hfail w (by rw [← hset]; exact List.mem_toFinset.mpr hwo)
  have hloop := wmBroadcastLoop_single_failure sendFails k order s hnd hkord hford
  have hbuckets : (wmDisconnect s k).buckets = s.buckets.erase (ct, t, k) := by
    subst hct ht
    simp only [wmDisconnect, hinfo]
    cases i.user_id <;> rfl
  refine ⟨?_, ?_, ?_, ?_⟩
  · simp [wmBroadcast, hne, hloop]
  · intro w hwb hwk
    have hword : w ∈ order := by rw [← List.mem_toFinset, hset]; exact hwb
    have : w ∈ order.erase k := (List.mem_erase_of_ne hwk).mpr hword
    simp only [wmBroadcast, hne, if_neg hne, hloop]
    exact List.mem_map_of_mem (fun w => (w, wmPrepare ct t msg ts)) this
  · simp [wmBroadcast, hne, hloop]
  · simp [wmBroadcast, hne, hloop, hbuckets]

/-- Models `connect` as a plain state transformer: the state after a successful
registration, the unchanged state when `connect` raised. -/
def wmConnectD (s : WMState) (ws : Nat) (client_type topic : String)
    (user_id : Option String) (now : Nat) : WMState :=
  match wmConnect s ws client_type topic user_id now with
  | .ok s2 => s2
  | .error _ => s

/-- Three sentiment/AAPL connections, as built by three `connect` calls. -/
def demoTopicState : WMState :=
  wmConnectD (wmConnectD (wmConnectD wmEmpty 1 "sentiment" "AAPL" none 0)
    2 "sentiment" "AAPL" none 1) 3 "sentiment" "AAPL" none 2

/-- Concrete instance of `wm_broadcast_partial_failure`: three connections on
sentiment/AAPL, connection 2 fails to send, connections 1 and 3 receive the
envelope and exactly connection 2 is deregistered. -/
theorem wm_broadcast_partial_failure_witness :
    ((wmBroadcast (fun w => w == 2) demoTopicState "sentiment" "AAPL"
        (.json (.jNum 7)) "T" [1, 2, 3]).2
      = ([1, 2, 3].erase 2).map
          (fun w => (w, wmPrepare "sentiment" "AAPL" (.json (.jNum 7)) "T"))
    ∧ (∀ w ∈ wmBucket demoTopicState "sentiment" "AAPL", w ≠ 2 →
        (w, wmPrepare "sentiment" "AAPL" (.json (.jNum 7)) "T")
          ∈ (wmBroadcast (fun w => w == 2) demoTopicState "sentiment" "AAPL"
              (.json (.jNum 7)) "T" [1, 2, 3]).2)
    ∧ (wmBroadcast (fun w => w == 2) demoTopicState "sentiment" "AAPL"
        (.json (.jNum 7)) "T" [1, 2, 3]).1 = wmDisconnect demoTopicState 2
    ∧ (wmBroadcast (fun w => w == 2) demoTopicState "sentiment" "AAPL"
        (.json (.jNum 7)) "T" [1, 2, 3]).1.buckets
        = demoTopicState.buckets.erase ("sentiment", "AAPL", 2)) :=
  wm_broadcast_partial_failure (fun w => w == 2) demoTopicState "sentiment" "AAPL"
    (.json (.jNum 7)) "T" [1, 2, 3] 2 ⟨"sentiment", "AAPL", none, 1⟩
    (by decide) (by decide) (by decide) (by decide) (by decide) rfl rfl

/-! ## User-targeted sends (`send_to_user`, `send_portfolio_update`) -/

/-- The snapshot `self.user_connections[user_id]`. -/
def wmUserSnapshot (s : WMState) (uid : String) : Finset Nat :=
  (s.user_connections.filter (fun p => p.1 = uid)).image (fun p => p.2)

/-- The envelope preparation at the top of `send_to_user`: any message that is
not a str or bytes — including a dict that is already an envelope — is wrapped
in a user_message envelope carrying the original message under its data
field. -/
def wmSendToUserPrepare (uid : String) (msg : WireMsg) (ts : String) : WireMsg :=
  match msg with
  | .json v => .json (.jObj [("type", .jStr "user_message"), ("user_id", .jStr uid),
      ("data", v), ("timestamp", .jStr ts)])
  | m => m

/-- Models `WebSocketManager.send_to_user`: returns when the user has no indexed
connections, otherwise prepares the message and runs the same per-connection
try/except send loop over a copy of the user's connection set. -/
def wmSendToUser (sendFails : Nat → Bool) (s : WMState) (uid : String) (msg : WireMsg)
    (ts : String) (order : List Nat) : WMState × List (Nat × WireMsg) :=
  if wmUserSnapshot s uid = ∅ then (s, [])
  else
    let m := wmSendToUserPrepare uid msg ts
    let r := wmBroadcastLoop sendFails s order
    (r.1, r.2.map (fun w => (w, m)))

/-- The dict literal built by `send_portfolio_update` before it calls
`send_to_user`. -/
def wmEnvelopePortfolio (data : JVal) (ts : String) : JVal :=
  .jObj [("type", .jStr "portfolio_update"), ("data", data), ("timestamp", .jStr ts)]

/-- Models `WebSocketManager.send_portfolio_update`: builds the portfolio_update
envelope and passes it to `send_to_user`.  `ts1` is the timestamp taken
inside `send_portfolio_update`, `ts2` the one taken inside `send_to_user`. -/
def wmSendPortfolioUpdate (sendFails : Nat → Bool) (s : WMState) (uid : String)
    (data : JVal) (ts1 ts2 : String) (order : List Nat) : WMState × List (Nat × WireMsg) :=
  wmSendToUser sendFails s uid (.json (wmEnvelopePortfolio data ts1)) ts2 order

/-- One portfolio connection owned by user u1. -/
def portfolioDemo : WMState :=
  wmConnectD wmEmpty 1 "portfolio" "portfolio" (some "u1") 0

/-- C9 fails on the code: `send_portfolio_update` builds the
portfolio_update envelope, but `send_to_user` wraps every non-str message —
this envelope included — in a second user_message envelope, so the user's
connection receives a message whose top-level type field is user_message and
whose data field holds the entire portfolio_update envelope, not the envelope
the claim describes. -/
theorem wm_portfolio_update_double_wrapped :
    (wmSendPortfolioUpdate (fun _ => false) portfolioDemo "u1" (.jNum 42) "T1" "T2" [1]).2
      = [(1, .json (.jObj [("type", .jStr "user_message"), ("user_id", .jStr "u1"),
          ("data", wmEnvelopePortfolio (.jNum 42) "T1"), ("timestamp", .jStr "T2")]))]
    ∧ jGet "type" (.jObj [("type", .jStr "user_message"), ("user_id", .jStr "u1"),
          ("data", wmEnvelopePortfolio (.jNum 42) "T1"), ("timestamp", .jStr "T2")])
        = some (.jStr "user_message") := by
  exact ⟨rfl, rfl⟩

/-! ## Event router (`process_event`, `handle_client_message`)

A handler is arbitrary application code invoked with the websocket and the
event; for the routing boundary all that matters is whether it raises, so a
handler is modelled by the exception it raises, if any. -/

abbrev HandlerB : Type := Nat → JVal → Option PyErr

/-- Models `self.event_handlers`, the event-type → handler table. -/
abbrev Handlers : Type := String → Option HandlerB

/-- Models `WebSocketManager.process_event`: looks up `event.get("type")` in the
handler table; with no registered handler it logs a warning and returns;
with a handler it awaits it, and whatever the handler raises propagates out
of `process_event` uncaught. -/
def process_event (handlers : Handlers) (ws : Nat) (event : JVal) : Option PyErr :=
  match jGet "type" event with
  | some (.jStr t) =>
    match handlers t with
    | some h => h ws event
    | none => none
  | _ => none

/-- What `await websocket.receive_json()` did. -/
inductive RecvOutcome where
  | ok (v : JVal)
  | disconnected
  | recvError

/-- Models `WebSocketManager.handle_client_message`: returns for an unregistered
websocket; passes a received dict that has a type field to `process_event`;
logs and returns on any other payload; and on either a
`WebSocketDisconnect` or any other exception — including one a handler
raised inside `process_event` — logs and calls `disconnect` on the
websocket. -/
def handle_client_message (handlers : Handlers) (s : WMState) (ws : Nat)
    (r : RecvOutcome) : WMState :=
  if (infoLookup ws s.connection_info).isNone then s
  else
    match r with
    | .disconnected => wmDisconnect s ws
    | .recvError => wmDisconnect s ws
    | .ok v =>
      match v with
      | .jObj fs =>
        if (jLookupField "type" fs).isSome then
          match process_event handlers ws (.jObj fs) with
          | none => s
          | some _ => wmDisconnect s ws
        else s
      | _ => s

/-- A handler table whose only entry, for event type ping, always raises. -/
def pingRaisingHandlers : Handlers :=
  fun t => if t = "ping" then some (fun _ _ => some .otherError) else none

/-- One registered sentiment/AAPL connection, used by the event-router
theorems. -/
def routeDemoState : WMState :=
  wmConnectD wmEmpty 1 "sentiment" "AAPL" none 0

/-- C4 fails on the code in its second half: when a registered handler
raises, the exception is indeed caught (at `handle_client_message`) and
logged, but the websocket is then disconnected — deregistered from the
registry and closed — whereas the claim says the connection is left open,
neither deregistered nor closed.  Concretely: connection 1 is registered and
open, a ping event is routed to the raising ping handler, and afterwards
connection 1 has no registry entry and has been closed. -/
theorem wm_handler_exception_disconnects :
    (infoLookup 1 routeDemoState.connection_info = some ⟨"sentiment", "AAPL", none, 0⟩
      ∧ routeDemoState.closed = ∅)
    ∧ infoLookup 1 (handle_client_message pingRaisingHandlers routeDemoState 1
        (.ok (.jObj [("type", .jStr "ping")]))).connection_info = none
    ∧ (1 : ℕ) ∈ (handle_client_message pingRaisingHandlers routeDemoState 1
        (.ok (.jObj [("type", .jStr "ping")]))).closed := by
  refine ⟨⟨?_, ?_⟩, ?_, ?_⟩ <;> decide

/-- C4 as amended: for every event routed through the router on a registered
connection, an event type with no registered handler is dropped with a
warning — no exception reaches the serve loop and the state (hence the
registry and the transport) is untouched; an event whose registered handler
raises has the exception caught at the `handle_client_message` boundary and
logged, and the serve loop continues, but the connection is then
disconnected: the final state is exactly `disconnect` applied to that
websocket, which deregisters it and closes its transport. -/
theorem wm_route_event_behavior (handlers : Handlers) (s : WMState) (ws : Nat)
    (fs : List (String × JVal)) (t : String)
    (hreg : (infoLookup ws s.connection_info).isSome)
    (htype : jLookupField "type" fs = some (.jStr t)) :
    (handlers t = none →
      handle_client_message handlers s ws (.ok (.jObj fs)) = s)
    ∧ (∀ h e, handlers t = some h → h ws (.jObj fs) = some e →
      handle_client_message handlers s ws (.ok (.jObj fs)) = wmDisconnect s ws) := by
  have hnone : (infoLookup ws s.connection_info).isNone = false := by
    rcases Option.isSome_iff_exists.mp hreg with ⟨i, hi⟩
    simp [hi]
  constructor
  · intro hnohandler
    simp [handle_client_message, hnone, htype, process_event, jGet, hnohandler]
  · intro h e hh he
    simp [handle_client_message, hnone, htype, process_event, jGet, hh, he]

/-- Concrete instance of `wm_route_event_behavior` at the raising ping
handler on the registered connection 1. -/
theorem wm_route_event_behavior_witness :
    ((pingRaisingHandlers "ping" = none →
      handle_client_message pingRaisingHandlers routeDemoState 1
        (.ok (.jObj [("type", .jStr "ping")])) = routeDemoState)
    ∧ (∀ h e, pingRaisingHandlers "ping" = some h →
        h 1 (.jObj [("type", .jStr "ping")]) = some e →
        handle_client_message pingRaisingHandlers routeDemoState 1
          (.ok (.jObj [("type", .jStr "ping")])) = wmDisconnect routeDemoState 1)) :=
  wm_route_event_behavior pingRaisingHandlers routeDemoState 1
    [("type", .jStr "ping")] "ping" (by decide) rfl

/-! ## Registry membership invariant (register/deregister sequences) -/

theorem infoLookup_infoErase (q k : Nat) (l : List (Nat × ConnInfo)) :
    infoLookup q (infoErase k l) = if q = k then none else infoLookup q l := by
  induction l with
  | nil => simp [infoErase, infoLookup]
  | cons p rest ih =>
    rcases p with ⟨a, i⟩
    by_cases hak : a = k
    · subst hak
      simp only [infoErase, if_pos rfl]
      by_cases hq : q = a
      · subst hq
        simp [ih]
      · have haq : ¬ a = q := fun h => hq h.symm
        simp [infoLookup, ih, hq, haq]
    · simp only [infoErase, if_neg hak]
      by_cases haq : a = q
      · subst haq
        simp [infoLookup, hak]
      · have hqa : ¬ q = a := fun h => haq h.symm
        simp [infoLookup, haq, ih]

theorem infoLookup_infoSet (q k : Nat) (i : ConnInfo) (l : List (Nat × ConnInfo)) :
    infoLookup q (infoSet k i l) = if q = k then some i else infoLookup q l := by
  by_cases hqk : q = k
  · subst hqk; simp [infoSet, infoLookup]
  · have hkq : ¬ k = q := fun h => hqk h.symm
    simp [infoSet, infoLookup, hkq, infoLookup_infoErase, hqk]

/-- One registry operation: a `connect` (`register`) or a `disconnect`
(`deregister`). -/
inductive RegOp where
  | reg (ws : Nat) (client_type topic : String) (user_id : Option String) (now : Nat)
  | dereg (ws : Nat)

/-- Apply one operation to a `WebSocketManager`; a `connect` that raises
`ValueError` leaves the state unchanged. -/
def applyOp (s : WMState) : RegOp → WMState
  | .reg ws ct topic uid now => wmConnectD s ws ct topic uid now
  | .dereg ws => wmDisconnect s ws

/-- Run a sequence of registry operations from a state. -/
def runOps (s : WMState) (ops : List RegOp) : WMState := ops.foldl applyOp s

/-- The reference registry the claim describes: who is registered and not
since deregistered.  A valid `register` records the connection info, an
invalid one records nothing, a `deregister` removes whatever is recorded. -/
def specStep (m : List (Nat × ConnInfo)) : RegOp → List (Nat × ConnInfo)
  | .reg ws ct topic uid now =>
    if ct ∈ wmClientTypes then infoSet ws ⟨ct, topic, uid, now⟩ m else m
  | .dereg ws => infoErase ws m

/-- The reference registry after a whole operation sequence. -/
def specRegistered (ops : List RegOp) : List (Nat × ConnInfo) :=
  ops.foldl specStep []

/-- Well-formedness of an operation sequence: no valid `register` targets a
transport handle that is currently registered.  (Deregistering anything,
registered or not, is allowed.) -/
def wfFrom (m : List (Nat × ConnInfo)) : List RegOp → Bool
  | [] => true
  | .reg ws ct topic uid now :: rest =>
    if ct ∈ wmClientTypes then
      (infoLookup ws m).isNone && wfFrom (infoSet ws ⟨ct, topic, uid, now⟩ m) rest
    else wfFrom m rest
  | .dereg ws :: rest => wfFrom (infoErase ws m) rest

def wfOps (ops : List RegOp) : Bool := wfFrom [] ops

/-- The manager state agrees with a reference info map: the info dict equals
it pointwise, and both indices contain exactly the connections it records. -/
def Agrees (s : WMState) (m : List (Nat × ConnInfo)) : Prop :=
  (∀ ws, infoLookup ws s.connection_info = infoLookup ws m)
  ∧ (∀ ct t ws, (ct, t, ws) ∈ s.buckets ↔
      ∃ i, infoLookup ws m = some i ∧ i.client_type = ct ∧ i.topic = t)
  ∧ (∀ u ws, (u, ws) ∈ s.user_connections ↔
      ∃ i, infoLookup ws m = some i ∧ i.user_id = some u)

theorem wmConnectD_buckets (s : WMState) (ws : Nat) (ct topic : String)
    (uid : Option String) (now : Nat) (h : ct ∈ wmClientTypes) :
    (wmConnectD s ws ct topic uid now).buckets = insert (ct, topic, ws) s.buckets := by
  have hnot : ¬ ct ∉ wmClientTypes := fun hh => hh h
  cases uid <;> simp [wmConnectD, wmConnect, hnot]

theorem wmConnectD_info (s : WMState) (ws : Nat) (ct topic : String)
    (uid : Option String) (now : Nat) (h : ct ∈ wmClientTypes) :
    (wmConnectD s ws ct topic uid now).connection_info
      = infoSet ws ⟨ct, topic, uid, now⟩ s.connection_info := by
  have hnot : ¬ ct ∉ wmClientTypes := fun hh => hh h
  cases uid <;> simp [wmConnectD, wmConnect, hnot]

theorem wmConnectD_users_none (s : WMState) (ws : Nat) (ct topic : String)
    (now : Nat) (h : ct ∈ wmClientTypes) :
    (wmConnectD s ws ct topic none now).user_connections = s.user_connections := by
  have hnot : ¬ ct ∉ wmClientTypes := fun hh => hh h
  simp [wmConnectD, wmConnect, hnot]

theorem wmConnectD_users_some (s : WMState) (ws : Nat) (ct topic u0 : String)
    (now : Nat) (h : ct ∈ wmClientTypes) :
    (wmConnectD s ws ct topic (some u0) now).user_connections
      = insert (u0, ws) s.user_connections := by
  have hnot : ¬ ct ∉ wmClientTypes := fun hh => hh h
  simp [wmConnectD, wmConnect, hnot]

theorem agrees_connect (s : WMState) (m : List (Nat × ConnInfo)) (ws : Nat)
    (ct topic : String) (uid : Option String) (now : Nat)
    (hA : Agrees s m) (hvalid : ct ∈ wmClientTypes)
    (hfresh : infoLookup ws m = none) :
    Agrees (wmConnectD s ws ct topic uid now)
      (infoSet ws ⟨ct, topic, uid, now⟩ m) := by
  obtain ⟨hI, hB, hU⟩ := hA
  refine ⟨?_, ?_, ?_⟩
  · intro w
    rw [wmConnectD_info s ws ct topic uid now hvalid]
    simp only [infoLookup_infoSet]
    by_cases hw : w = ws
    · simp [hw]
    · simp [hw, hI w]
  · intro ct2 t2 w
    rw [wmConnectD_buckets s ws ct topic uid now hvalid]
    simp only [infoLookup_infoSet, Finset.mem_insert]
    by_cases hw : w = ws
    · subst hw
      have hold : (ct2, t2, w) ∉ s.buckets := by
        intro hmem
        rcases (hB ct2 t2 w).mp hmem with ⟨i, hi, _, _⟩
        rw [hfresh] at hi
        cases hi
      simp only [if_pos rfl]
      constructor
      · intro hc
        rcases hc with hc | hc
        · have h1 : ct2 = ct := congrArg (fun p => p.1) hc
          have h2 : t2 = topic := congrArg (fun p => p.2.1) hc
          exact ⟨_, rfl, h1.symm, h2.symm⟩
        · exact absurd hc hold
      · rintro ⟨i, hi, hct2, ht2⟩
        have hi2 : some (⟨ct, topic, uid, now⟩ : ConnInfo) = some i := hi
        injection hi2 with hi3
        subst hi3
        have h1 : ct = ct2 := hct2
        have h2 : topic = t2 := ht2
        subst h1
        subst h2
        exact Or.inl rfl
    · simp only [if_neg hw]
      constructor
      · intro hc
        rcases hc with hc | hc
        · exact absurd (congrArg (fun p => p.2.2) hc) hw
        · exact (hB ct2 t2 w).mp hc
      · intro hrhs
        exact Or.inr ((hB ct2 t2 w).mpr hrhs)
  · intro u w
    cases uid with
    | none =>
      rw [wmConnectD_users_none s ws ct topic now hvalid]
      simp only [infoLookup_infoSet]
      by_cases hw : w = ws
      · subst hw
        have hold : (u, w) ∉ s.user_connections := by
          intro hmem
          rcases (hU u w).mp hmem with ⟨i, hi, _⟩
          rw [hfresh] at hi
          cases hi
        simp only [if_pos rfl]
        constructor
        · intro hmem
          exact absurd hmem hold
        · rintro ⟨i, hi, hui⟩
          have hi2 : some (⟨ct, topic, none, now⟩ : ConnInfo) = some i := hi
          injection hi2 with hi3
          subst hi3
          have : (none : Option String) = some u := hui
          cases this
      · simp only [if_neg hw]
        exact hU u w
    | some u0 =>
      rw [wmConnectD_users_some s ws ct topic u0 now hvalid]
      simp only [infoLookup_infoSet, Finset.mem_insert]
      by_cases hw : w = ws
      · subst hw
        have hold : (u, w) ∉ s.user_connections := by
          intro hmem
          rcases (hU u w).mp hmem with ⟨i, hi, _⟩
          rw [hfresh] at hi
          cases hi
        simp only [if_pos rfl]
        constructor
        · intro hc
          rcases hc with hc | hc
          · have h1 : u = u0 := congrArg (fun p => p.1) hc
            subst h1
            exact ⟨_, rfl, rfl⟩
          · exact absurd hc hold
        · rintro ⟨i, hi, hui⟩
          have hi2 : some (⟨ct, topic, some u0, now⟩ : ConnInfo) = some i := hi
          injection hi2 with hi3
          subst hi3
          have hs : some u0 = some u := hui
          injection hs with he
          subst he
          exact Or.inl rfl
      · simp only [if_neg hw]
        constructor
        · intro hc
          rcases hc with hc | hc
          · exact absurd (congrArg (fun p => p.2) hc) hw
          · exact (hU u w).mp hc
        · intro hrhs
          exact Or.inr ((hU u w).mpr hrhs)

theorem agrees_connect_invalid (s : WMState) (m : List (Nat × ConnInfo)) (ws : Nat)
    (ct topic : String) (uid : Option String) (now : Nat)
    (hA : Agrees s m) (hinvalid : ct ∉ wmClientTypes) :
    Agrees (wmConnectD s ws ct topic uid now) m := by
  simpa [wmConnectD, wmConnect, hinvalid] using hA

theorem agrees_disconnect (s : WMState) (m : List (Nat × ConnInfo)) (ws : Nat)
    (hA : Agrees s m) :
    Agrees (wmDisconnect s ws) (infoErase ws m) := by
  obtain ⟨hI, hB, hU⟩ := hA
  cases hlook : infoLookup ws s.connection_info with
  | none =>
    have hm : infoLookup ws m = none := by rw [← hI ws]; exact hlook
    refine ⟨?_, ?_, ?_⟩
    · intro w
      by_cases hw : w = ws
      · subst hw; simp [wmDisconnect, hlook, infoLookup_infoErase, hm, hI w]
      · simp [wmDisconnect, hlook, infoLookup_infoErase, hw, hI w]
    · intro ct2 t2 w
      by_cases hw : w = ws
      · subst hw
        simp only [wmDisconnect, hlook, infoLookup_infoErase, if_pos rfl]
        rw [hB ct2 t2 w, hm]
        simp
      · simp only [wmDisconnect, hlook, infoLookup_infoErase, if_neg hw]
        exact hB ct2 t2 w
    · intro u w
      by_cases hw : w = ws
      · subst hw
        simp only [wmDisconnect, hlook, infoLookup_infoErase, if_pos rfl]
        rw [hU u w, hm]
        simp
      · simp only [wmDisconnect, hlook, infoLookup_infoErase, if_neg hw]
        exact hU u w
  | some info =>
    have hm : infoLookup ws m = some info := by rw [← hI ws]; exact hlook
    have hbuckets : (wmDisconnect s ws).buckets
        = s.buckets.erase (info.client_type, info.topic, ws) := by
      simp only [wmDisconnect, hlook]
      cases info.user_id <;> rfl
    have husers : (wmDisconnect s ws).user_connections
        = (match info.user_id with
           | some u => s.user_connections.erase (u, ws)
           | none => s.user_connections) := by
      simp only [wmDisconnect, hlook]
      cases info.user_id <;> rfl
    have hinfo2 : (wmDisconnect s ws).connection_info
        = infoErase ws s.connection_info := by
      simp only [wmDisconnect, hlook]
      cases info.user_id <;> rfl
    refine ⟨?_, ?_, ?_⟩
    · intro w
      rw [hinfo2, infoLookup_infoErase, infoLookup_infoErase]
      by_cases hw : w = ws
      · simp [hw]
      · simp [hw, hI w]
    · intro ct2 t2 w
      rw [hbuckets, infoLookup_infoErase]
      by_cases hw : w = ws
      · subst hw
        simp only [if_pos rfl]
        constructor
        · intro hmem
          have hne := (Finset.mem_erase.mp hmem).1
          have hin := (Finset.mem_erase.mp hmem).2
          rcases (hB ct2 t2 w).mp hin with ⟨i, hi, hct, ht⟩
          rw [hm] at hi
          cases hi
          exact absurd (by rw [← hct, ← ht]) hne
        · rintro ⟨i, hi, _, _⟩; cases hi
      · simp only [if_neg hw]
        rw [Finset.mem_erase]
        constructor
        · rintro ⟨_, hin⟩; exact (hB ct2 t2 w).mp hin
        · intro hrhs
          refine ⟨?_, (hB ct2 t2 w).mpr hrhs⟩
          intro heq
          exact hw (congrArg (fun p => p.2.2) heq)
    · intro u w
      rw [husers, infoLookup_infoErase]
      by_cases hw : w = ws
      · subst hw
        simp only [if_pos rfl]
        constructor
        · intro hmem
          cases huid : info.user_id with
          | none =>
            rw [huid] at hmem
            rcases (hU u w).mp hmem with ⟨i, hi, hui⟩
            rw [hm] at hi
            cases hi
            rw [huid] at hui
            cases hui
          | some u0 =>
            rw [huid] at hmem
            have hne := (Finset.mem_erase.mp hmem).1
            have hin := (Finset.mem_erase.mp hmem).2
            rcases (hU u w).mp hin with ⟨i, hi, hui⟩
            rw [hm] at hi
            cases hi
            rw [huid] at hui
            cases hui
            exact absurd rfl hne
        · rintro ⟨i, hi, _⟩; cases hi
      · simp only [if_neg hw]
        cases huid : info.user_id with
        | none => exact hU u w
        | some u0 =>
          rw [Finset.mem_erase]
          constructor
          · rintro ⟨_, hin⟩; exact (hU u w).mp hin
          · intro hrhs
            refine ⟨?_, (hU u w).mpr hrhs⟩
            intro heq
            exact hw (congrArg (fun p => p.2) heq)

theorem runOps_agrees : ∀ (ops : List RegOp) (s : WMState) (m : List (Nat × ConnInfo)),
    Agrees s m → wfFrom m ops = true →
    Agrees (runOps s ops) (ops.foldl specStep m) := by
  intro ops
  induction ops with
  | nil => intro s m hA _; exact hA
  | cons op rest ih =>
    intro s m hA hwf
    cases op with
    | reg ws ct topic uid now =>
      have hrun : runOps s (RegOp.reg ws ct topic uid now :: rest)
          = runOps (wmConnectD s ws ct topic uid now) rest := rfl
      by_cases hv : ct ∈ wmClientTypes
      · simp only [wfFrom, if_pos hv, Bool.and_eq_true] at hwf
        have hfresh : infoLookup ws m = none :=
          Option.isNone_iff_eq_none.mp hwf.1
        have hspec : (RegOp.reg ws ct topic uid now :: rest).foldl specStep m
            = rest.foldl specStep (infoSet ws ⟨ct, topic, uid, now⟩ m) := by
          simp [specStep, hv]
        rw [hrun, hspec]
        exact ih _ _ (agrees_connect s m ws ct topic uid now hA hv hfresh) hwf.2
      · simp only [wfFrom, if_neg hv] at hwf
        have hspec : (RegOp.reg ws ct topic uid now :: rest).foldl specStep m
            = rest.foldl specStep m := by
          simp [specStep, hv]
        rw [hrun, hspec]
        exact ih _ _ (agrees_connect_invalid s m ws ct topic uid now hA hv) hwf
    | dereg ws =>
      simp only [wfFrom] at hwf
      exact ih _ _ (agrees_disconnect s m ws hA) hwf

/-- The double registration the claim rules out: websocket 1 registers under
sentiment/AAPL, registers again under sentiment/MSFT (the second `connect`
overwrites its `connection_info` entry but leaves it in the AAPL bucket),
then deregisters.  `disconnect` only removes the bucket entry its info
records, so the AAPL entry dangles: the connection appears in the registry
index even though it has been deregistered. -/
def danglingOps : List RegOp :=
  [.reg 1 "sentiment" "AAPL" none 0, .reg 1 "sentiment" "MSFT" none 1, .dereg 1]

/-- C7 as stated is false on the code: after `danglingOps`, websocket 1 has
been deregistered (no `connection_info` entry) yet still appears in the
sentiment/AAPL registry bucket — a dangling entry produced by registering
the same transport handle twice. -/
theorem wm_double_register_dangling :
    infoLookup 1 (runOps wmEmpty danglingOps).connection_info = none
    ∧ ("sentiment", "AAPL", 1) ∈ (runOps wmEmpty danglingOps).buckets := by
  exact ⟨by decide, by decide⟩

/-- C7 as amended: for every sequence of register/deregister operations in
which no register targets a currently registered transport handle, a
connection appears in the `(client_type, topic)` index or the user-id index
iff it has been registered (with a recognized client type) and not since
deregistered, with the indexed key exactly the one recorded at registration —
so there are no dangling or duplicate entries. -/
theorem wm_registry_invariant (ops : List RegOp) (h : wfOps ops = true) :
    (∀ ws, infoLookup ws (runOps wmEmpty ops).connection_info
        = infoLookup ws (specRegistered ops))
    ∧ (∀ ct t ws, (ct, t, ws) ∈ (runOps wmEmpty ops).buckets ↔
        ∃ i, infoLookup ws (specRegistered ops) = some i
          ∧ i.client_type = ct ∧ i.topic = t)
    ∧ (∀ u ws, (u, ws) ∈ (runOps wmEmpty ops).user_connections ↔
        ∃ i, infoLookup ws (specRegistered ops) = some i ∧ i.user_id = some u) :=
  runOps_agrees ops wmEmpty []
    ⟨fun _ => rfl,
     fun ct t ws => by simp [wmEmpty, infoLookup],
     fun u ws => by simp [wmEmpty, infoLookup]⟩ h

/-- A well-formed demonstration sequence: two registrations, a deregister, a
repeated (idempotent) deregister, and a fresh re-registration of the same
handle under a new key. -/
def wfDemoOps : List RegOp :=
  [.reg 1 "sentiment" "AAPL" (some "u1") 0, .reg 2 "sentiment" "AAPL" none 1,
   .dereg 1, .dereg 1, .reg 1 "trading" "MSFT" none 2]

/-- Concrete instance of `wm_registry_invariant` on `wfDemoOps`. -/
theorem wm_registry_invariant_witness :
    wfOps wfDemoOps = true
    ∧ ((∀ ws, infoLookup ws (runOps wmEmpty wfDemoOps).connection_info
          = infoLookup ws (specRegistered wfDemoOps))
      ∧ (∀ ct t ws, (ct, t, ws) ∈ (runOps wmEmpty wfDemoOps).buckets ↔
          ∃ i, infoLookup ws (specRegistered wfDemoOps) = some i
            ∧ i.client_type = ct ∧ i.topic = t)
      ∧ (∀ u ws, (u, ws) ∈ (runOps wmEmpty wfDemoOps).user_connections ↔
          ∃ i, infoLookup ws (specRegistered wfDemoOps) = some i
            ∧ i.user_id = some u)) :=
  ⟨by decide, wm_registry_invariant wfDemoOps (by decide)⟩

/-! ## `ConnectionManager` (backend/app/core/websocket_manager.py)

State is `active_connections` (a defaultdict from client id to a set of
websockets), `rate_limits` (a defaultdict from client id to a dict from
`str(timestamp)` to a count), and `redis_subscriptions` (the channel keys a
forwarding task has been started for).  Timestamps are integers: what matters
to the code is that distinct `time.time()` values stringify to distinct dict
keys while equal values collide on one key, which equality of integers models
exactly. -/

structure CMState where
  active_connections : List (String × Finset Nat)
  rate_limits : List (String × List (ℤ × Nat))
  redis_subscriptions : List String
deriving DecidableEq

def cmEmpty : CMState :=
  { active_connections := [], rate_limits := [], redis_subscriptions := [] }

/-- Plain dict lookup (`cid in d` / `d[cid]` without the defaultdict
insertion). -/
def acLookup (cid : String) : List (String × Finset Nat) → Option (Finset Nat)
  | [] => none
  | (c, conns) :: rest => if c = cid then some conns else acLookup cid rest

/-- Models `active_connections[cid].add(ws)` on a defaultdict: inserts into the
existing set, or creates the entry. -/
def acAdd (cid : String) (ws : Nat) : List (String × Finset Nat) → List (String × Finset Nat)
  | [] => [(cid, {ws})]
  | (c, conns) :: rest =>
    if c = cid then (c, insert ws conns) :: rest else (c, conns) :: acAdd cid ws rest

/-- Replace the set stored under a client id. -/
def acSet (cid : String) (conns : Finset Nat) :
    List (String × Finset Nat) → List (String × Finset Nat)
  | [] => [(cid, conns)]
  | (c, cs) :: rest => if c = cid then (c, conns) :: rest else (c, cs) :: acSet cid conns rest

/-- Models `del active_connections[cid]`. -/
def acDelete (cid : String) : List (String × Finset Nat) → List (String × Finset Nat)
  | [] => []
  | (c, cs) :: rest => if c = cid then acDelete cid rest else (c, cs) :: acDelete cid rest

/-- Models `ConnectionManager.connect`: accept and add to the client's set. -/
def cmConnect (s : CMState) (ws : Nat) (cid : String) : CMState :=
  { s with active_connections := acAdd cid ws s.active_connections }

/-- Models `ConnectionManager.disconnect`: `active_connections[client_id]` on the
defaultdict materializes an empty set when the client id is absent, and
`set.remove` then raises `KeyError`; `remove` also raises when the websocket
is not in the set.  On success the websocket is removed and an emptied set is
deleted.  Returns the post state and the exception raised, if any. -/
def cmDisconnect (s : CMState) (ws : Nat) (cid : String) : CMState × Option PyErr :=
  match acLookup cid s.active_connections with
  | none =>
    ({ s with active_connections := s.active_connections ++ [(cid, ∅)] }, some .keyError)
  | some conns =>
    if ws ∈ conns then
      let conns2 := conns.erase ws
      if conns2 = ∅ then
        ({ s with active_connections := acDelete cid s.active_connections }, none)
      else
        ({ s with active_connections := acSet cid conns2 s.active_connections }, none)
    else (s, some .keyError)

/-- Models `ConnectionManager.subscribe_to_symbol`: the websocket and client id
arguments are not recorded anywhere; when the channel key is new it is marked
subscribed and a forwarding task is started for it, otherwise nothing
happens. -/
def cmSubscribe (s : CMState) (symbol : String) : CMState :=
  let channel := "sentiment_updates:" ++ symbol
  if channel ∈ s.redis_subscriptions then s
  else { s with redis_subscriptions := channel :: s.redis_subscriptions }

/-- The recipients one iteration of `ConnectionManager._forward_messages`
sends a bus message to: the loop computes `symbol = channel.split(":")[1]`
but never uses it, and iterates every connection of every client id in
`active_connections`. -/
def cmForwardTargets (s : CMState) (channel : String) : Finset Nat :=
  let _symbol := (channel.splitOn ":").getD 1 ""
  s.active_connections.foldr (fun p acc => p.2 ∪ acc) ∅

/-- What `await connection.send_text(...)` did for a given websocket. -/
inductive SendBeh where
  | ok
  | disc
  | err

/-- The loop body of `ConnectionManager.broadcast`.  The iteration runs over
the live set `active_connections[client_id]` (no copy); `order` is its
enumeration when the loop starts.  A `WebSocketDisconnect` triggers
`disconnect`, which removes the websocket from the very set being iterated:
the iterator detects the size change and raises `RuntimeError` at its next
step (also at the exhaustion check), which nothing catches.  Any other send
error is logged and the loop continues without deregistering.  Returns the
final state, the websockets sent to successfully, and the exception escaping
the loop, if any. -/
def cmBroadcastLoop (beh : Nat → SendBeh) (cid : String) :
    List Nat → CMState → Bool → CMState × List Nat × Option PyErr
  | [], s, mutated =>
    if mutated then (s, [], some .runtimeError) else (s, [], none)
  | ws :: rest, s, mutated =>
    if mutated then (s, [], some .runtimeError)
    else
      match beh ws with
      | .ok =>
        match cmBroadcastLoop beh cid rest s false with
        | (s2, d, e) => (s2, ws :: d, e)
      | .disc =>
        match cmDisconnect s ws cid with
        | (s2, none) => cmBroadcastLoop beh cid rest s2 true
        | (s2, some e) => (s2, [], some e)
      | .err => cmBroadcastLoop beh cid rest s false

/-- Models `ConnectionManager.broadcast`: a no-op when the client id has no entry,
otherwise the live-set send loop. -/
def cmBroadcast (beh : Nat → SendBeh) (s : CMState) (message cid : String)
    (order : List Nat) : CMState × List (Nat × String) × Option PyErr :=
  match acLookup cid s.active_connections with
  | none => (s, [], none)
  | some _ =>
    match cmBroadcastLoop beh cid order s false with
    | (s2, d, e) => (s2, d.map (fun w => (w, message)), e)

/-- Client A with two registered connections 1 and 2. -/
def cmTwoConns : CMState := cmConnect (cmConnect cmEmpty 1 "A") 2 "A"

/-- Send behaviour in which exactly connection 1 raises
`WebSocketDisconnect`. -/
def oneDiscBeh : Nat → SendBeh := fun w => if w = 1 then .disc else .ok

/-- C1 as stated is false on `ConnectionManager.broadcast`: with two
registered connections where connection 1 fails with `WebSocketDisconnect`
(iteration order 1 then 2), the in-loop `disconnect` removes connection 1
from the set being iterated, so the iterator raises `RuntimeError`: nothing
is delivered to connection 2 — the claimed N−1 delivery does not happen —
and the error escapes `broadcast` to its caller. -/
theorem cm_broadcast_failure_aborts_delivery :
    (cmBroadcast oneDiscBeh cmTwoConns "m" "A" [1, 2]).2.1 = []
    ∧ (cmBroadcast oneDiscBeh cmTwoConns "m" "A" [1, 2]).2.2 = some .runtimeError := by
  exact ⟨by decide, by decide⟩

/-- Connections 1 (client A) and 2 (client B), where only client A has
subscribed to the symbol AAPL. -/
def cmSubDemo : CMState :=
  cmSubscribe (cmConnect (cmConnect cmEmpty 1 "A") 2 "B") "AAPL"

/-- C2 fails on the code: a message delivered on the channel
sentiment_updates:AAPL is forwarded to every connection of every client —
connection 2, whose client B never subscribed to AAPL, is among the
recipients, because `_forward_messages` parses the symbol out of the channel
name and then never uses it to filter. -/
theorem cm_forward_targets_ignore_topic :
    cmForwardTargets cmSubDemo "sentiment_updates:AAPL" = {1, 2}
    ∧ 2 ∈ cmForwardTargets cmSubDemo "sentiment_updates:AAPL" := by
  exact ⟨by decide, by decide⟩

/-- Client A with the single registered connection 7. -/
def cmOneConn : CMState := cmConnect cmEmpty 7 "A"

/-- C3 fails on `ConnectionManager.disconnect`: the first disconnect of
connection 7 succeeds, but the second raises `KeyError` (`set.remove` on an
absent element) instead of being a no-op — and it even mutates the registry,
leaving behind the empty set the defaultdict access materialized. -/
theorem cm_disconnect_double_dereg_raises :
    (cmDisconnect cmOneConn 7 "A").2 = none
    ∧ (cmDisconnect cmOneConn 7 "A").1.active_connections = []
    ∧ (cmDisconnect (cmDisconnect cmOneConn 7 "A").1 7 "A").2 = some .keyError
    ∧ (cmDisconnect (cmDisconnect cmOneConn 7 "A").1 7 "A").1.active_connections
        = [("A", ∅)] := by
  refine ⟨by decide, by decide, by decide, by decide⟩

/-! ## Session lifecycle exit paths -/

/-- How a serve loop ended: the client closed (`WebSocketDisconnect`), an
exception was raised (any other `Exception`), or the task was cancelled
(`asyncio.CancelledError`, which since Python 3.8 is a `BaseException` and
is not caught by `except Exception`). -/
inductive ExitKind where
  | normalClose
  | appError
  | cancelled

/-- Models `await websocket.close(...)` guarded by the client-state check. -/
def wmCloseIfOpen (s : WMState) (ws : Nat) : WMState :=
  { s with closed := insert ws s.closed }

/-- The exit handling of `WebSocketManager.websocket_session`:
`except WebSocketDisconnect` logs, `except Exception` logs and closes with
code 1011, and the `finally` block runs `disconnect` on every path —
including cancellation, which propagates through both except clauses but
still triggers `finally`. -/
def websocket_session_exit (s : WMState) (ws : Nat) : ExitKind → WMState
  | .normalClose => wmDisconnect s ws
  | .appError => wmDisconnect (wmCloseIfOpen s ws) ws
  | .cancelled => wmDisconnect s ws

/-- The exit handling of `ConnectionManager.handle_websocket`: there is no
`finally`; `except WebSocketDisconnect` and `except Exception` both call
`disconnect`, but a `CancelledError` matches neither clause, so it
propagates with no cleanup at all. -/
def handle_websocket_exit (s : CMState) (ws : Nat) (cid : String) :
    ExitKind → CMState × Option PyErr
  | .normalClose => cmDisconnect s ws cid
  | .appError => cmDisconnect s ws cid
  | .cancelled => (s, some .cancelledError)

/-- C6 fails on `ConnectionManager.handle_websocket`: after registration of
connection 7 for client A, exiting by cancellation performs no deregistration
at all — the state is untouched and connection 7 is still registered when
the task has terminated — while the normal-close and error exits (and every
exit of `WebSocketManager.websocket_session`, whose `finally` always runs
`disconnect`) do deregister. -/
theorem cm_cancellation_leaves_registered :
    (handle_websocket_exit cmOneConn 7 "A" .cancelled).1 = cmOneConn
    ∧ acLookup "A" (handle_websocket_exit cmOneConn 7 "A" .cancelled).1.active_connections
        = some {7}
    ∧ (handle_websocket_exit cmOneConn 7 "A" .normalClose).1.active_connections = []
    ∧ (handle_websocket_exit cmOneConn 7 "A" .appError).1.active_connections = []
    ∧ infoLookup 1 (websocket_session_exit routeDemoState 1 .normalClose).connection_info = none
    ∧ infoLookup 1 (websocket_session_exit routeDemoState 1 .appError).connection_info = none
    ∧ infoLookup 1 (websocket_session_exit routeDemoState 1 .cancelled).connection_info = none := by
  refine ⟨by decide, by decide, by decide, by decide, by decide, by decide, by decide⟩

/-! ## Rate limiter (`ConnectionManager.check_rate_limit`)

`rate_limits[client_id]` is a dict from `str(timestamp)` to a count.  The
purge builds a fresh dict of the entries younger than 60 seconds; when the
surviving counts sum to the limit the call returns `False` without writing
anything back; otherwise `client_limits[str(now)] = 1` is recorded — an
overwrite when the exact timestamp key already exists — and the purged dict
is written back. -/

/-- Defaultdict read `rate_limits[client_id]` (a missing client id behaves
as the empty dict). -/
def rlLookup (cid : String) : List (String × List (ℤ × Nat)) → List (ℤ × Nat)
  | [] => []
  | (c, e) :: rest => if c = cid then e else rlLookup cid rest

/-- Models `rate_limits[client_id] = entry`. -/
def rlSet (cid : String) (entry : List (ℤ × Nat)) :
    List (String × List (ℤ × Nat)) → List (String × List (ℤ × Nat))
  | [] => [(cid, entry)]
  | (c, e) :: rest => if c = cid then (c, entry) :: rest else (c, e) :: rlSet cid entry rest

/-- The purge comprehension: keep entries with `now - float(ts) < 60`. -/
def purgeOld (now : ℤ) (entries : List (ℤ × Nat)) : List (ℤ × Nat) :=
  entries.filter (fun p => decide (now - p.1 < 60))

/-- Models `sum(client_limits.values())`. -/
def sumCounts (entries : List (ℤ × Nat)) : Nat := (entries.map Prod.snd).sum

/-- Models `client_limits[str(now)] = 1`: overwrite the entry whose key is exactly
`now`, or append a new one. -/
def entrySet (now : ℤ) : List (ℤ × Nat) → List (ℤ × Nat)
  | [] => [(now, 1)]
  | (t, c) :: rest => if t = now then (t, 1) :: rest else (t, c) :: entrySet now rest

/-- Models `ConnectionManager.check_rate_limit` at wall-clock time `now`. -/
def check_rate_limit (s : CMState) (cid : String) (now : ℤ) : CMState × Bool :=
  let cl := rlLookup cid s.rate_limits
  let cl2 := purgeOld now cl
  if 60 ≤ sumCounts cl2 then (s, false)
  else
    let cl3 := entrySet now cl2
    ({ s with rate_limits := rlSet cid cl3 s.rate_limits }, true)

/-- Issue a sequence of `check_rate_limit` calls for one client at the given
times, collecting the returned booleans. -/
def rlRun (cid : String) : CMState → List ℤ → CMState × List Bool
  | s, [] => (s, [])
  | s, t :: ts =>
    let r1 := check_rate_limit s cid t
    let r2 := rlRun cid r1.1 ts
    (r2.1, r1.2 :: r2.2)

theorem rlLookup_rlSet (cid : String) (e : List (ℤ × Nat))
    (l : List (String × List (ℤ × Nat))) :
    rlLookup cid (rlSet cid e l) = e := by
  induction l with
  | nil => simp [rlSet, rlLookup]
  | cons p rest ih =>
    rcases p with ⟨c, e0⟩
    by_cases hc : c = cid
    · simp [rlSet, rlLookup, hc]
    · simp [rlSet, rlLookup, hc, ih]

theorem sumCounts_ones (acc : List ℤ) :
    sumCounts (acc.map (fun x => (x, 1))) = acc.length := by
  induction acc with
  | nil => rfl
  | cons t rest ih =>
    simp only [List.map_cons, sumCounts, List.sum_cons, List.length_cons] at ih ⊢
    omega

theorem purgeOld_keep_all (now : ℤ) (acc : List ℤ) (h : ∀ a ∈ acc, now - a < 60) :
    purgeOld now (acc.map (fun x => (x, 1))) = acc.map (fun x => (x, 1)) := by
  apply List.filter_eq_self.mpr
  intro p hp
  rcases List.mem_map.mp hp with ⟨a, ha, hpa⟩
  subst hpa
  exact decide_eq_true (h a ha)

theorem purgeOld_drop_all (now : ℤ) (acc : List ℤ) (h : ∀ a ∈ acc, 60 ≤ now - a) :
    purgeOld now (acc.map (fun x => (x, 1))) = [] := by
  apply List.filter_eq_nil_iff.mpr
  intro p hp
  rcases List.mem_map.mp hp with ⟨a, ha, hpa⟩
  subst hpa
  simp [not_lt.mpr (h a ha)]

theorem entrySet_append (now : ℤ) (acc : List ℤ) (h : now ∉ acc) :
    entrySet now (acc.map (fun x => (x, 1))) = (acc ++ [now]).map (fun x => (x, 1)) := by
  induction acc with
  | nil => rfl
  | cons t rest ih =>
    have ht : ¬ t = now := by
      intro he
      exact h (by rw [← he]; exact List.mem_cons_self t rest)
    have h2 : now ∉ rest := fun hc => h (List.mem_cons_of_mem t hc)
    simp only [List.map_cons, entrySet, if_neg ht, ih h2, List.cons_append]

theorem rlRun_in_window (cid : String) :
    ∀ (ts : List ℤ) (s : CMState) (acc : List ℤ),
      rlLookup cid s.rate_limits = acc.map (fun x => (x, 1)) →
      acc.length + ts.length ≤ 60 →
      (∀ a ∈ acc, ∀ b ∈ ts, a < b ∧ b - a < 60) →
      ts.Pairwise (fun a b => a < b ∧ b - a < 60) →
      (rlRun cid s ts).2 = List.replicate ts.length true
      ∧ rlLookup cid (rlRun cid s ts).1.rate_limits = (acc ++ ts).map (fun x => (x, 1)) := by
  intro ts
  induction ts with
  | nil =>
    intro s acc hlook hlen hcross hpw
    exact ⟨rfl, by simpa using hlook⟩
  | cons t rest ih =>
    intro s acc hlook hlen hcross hpw
    have hkeep : ∀ a ∈ acc, t - a < 60 :=
      fun a ha => (hcross a ha t (List.mem_cons_self t rest)).2
    have hnp : t ∉ acc :=
      fun hmem => lt_irrefl t (hcross t hmem t (List.mem_cons_self t rest)).1
    have hsum : ¬ 60 ≤ sumCounts (acc.map (fun x => (x, 1))) := by
      rw [sumCounts_ones]
      simp only [List.length_cons] at hlen
      omega
    have hstep : check_rate_limit s cid t
        = ({ s with rate_limits := rlSet cid ((acc ++ [t]).map (fun x => (x, 1))) s.rate_limits }, true) := by
      simp only [check_rate_limit, hlook, purgeOld_keep_all t acc hkeep,
        entrySet_append t acc hnp, if_neg hsum]
    have hlook2 : rlLookup cid ({ s with rate_limits := rlSet cid ((acc ++ [t]).map (fun x => (x, 1))) s.rate_limits } : CMState).rate_limits
        = (acc ++ [t]).map (fun x => (x, 1)) :=
      rlLookup_rlSet cid _ _
    have hcross2 : ∀ a ∈ acc ++ [t], ∀ b ∈ rest, a < b ∧ b - a < 60 := by
      intro a ha b hb
      rcases List.mem_append.mp ha with ha | ha
      · exact hcross a ha b (List.mem_cons_of_mem t hb)
      · have haeq : a = t := by simpa using ha
        subst haeq
        exact (List.pairwise_cons.mp hpw).1 b hb
    have hlen2 : (acc ++ [t]).length + rest.length ≤ 60 := by
      simp only [List.length_append, List.length_cons, List.length_nil] at hlen ⊢
      omega
    have hpw2 := (List.pairwise_cons.mp hpw).2
    obtain ⟨hres, hlookF⟩ := ih _ (acc ++ [t]) hlook2 hlen2 hcross2 hpw2
    refine ⟨?_, ?_⟩
    · simp only [rlRun, hstep]
      rw [hres]
      simp [List.replicate_succ]
    · simp only [rlRun, hstep]
      rw [hlookF]
      simp

/-- C5 as stated is false on the code: the recorded-timestamp dict is keyed
by `str(now)`, so calls sharing one identical timestamp overwrite a single
entry and are counted once.  Sixty-one calls for client c all at time 0 —
all within one 60-second window — every one of them returns true; the 61st
does not return false as the claim requires. -/
theorem rate_limit_equal_timestamps_counterexample :
    (rlRun "c" cmEmpty (List.replicate 61 (0 : ℤ))).2 = List.replicate 61 true := by
  decide

/-- C5 as amended: with the code's constants (limit 60 requests, 60-second
window) and calls at pairwise distinct, increasing timestamps, 60 allow-calls
for a fresh client within one window all return true; a 61st call still
inside the window returns false and leaves the limiter state — indeed the
whole manager state — unchanged; and once 60 seconds have elapsed since
every recorded timestamp, a further call returns true again.  (For calls
sharing an identical timestamp the guarantee fails, see the
equal-timestamps counterexample.) -/
theorem check_rate_limit_window_behavior (s : CMState) (cid : String)
    (ts : List ℤ) (t61 tLater : ℤ)
    (hfresh : rlLookup cid s.rate_limits = [])
    (hlen : ts.length = 60)
    (hpw : ts.Pairwise (fun a b => a < b ∧ b - a < 60))
    (h61 : ∀ a ∈ ts, t61 - a < 60)
    (hlater : ∀ a ∈ ts, 60 ≤ tLater - a) :
    (rlRun cid s ts).2 = List.replicate 60 true
    ∧ check_rate_limit (rlRun cid s ts).1 cid t61 = ((rlRun cid s ts).1, false)
    ∧ (check_rate_limit (rlRun cid s ts).1 cid tLater).2 = true := by
  obtain ⟨hres, hlook⟩ := rlRun_in_window cid ts s []
    (by simpa using hfresh) (by simp [hlen]) (by simp) hpw
  rw [List.nil_append] at hlook
  refine ⟨by rw [hres, hlen], ?_, ?_⟩
  · have hsum : 60 ≤ sumCounts (purgeOld t61 (ts.map (fun x => (x, 1)))) := by
      rw [purgeOld_keep_all t61 ts h61, sumCounts_ones, hlen]
    simp only [check_rate_limit, hlook, if_pos hsum]
  · have hdrop : purgeOld tLater (ts.map (fun x => (x, 1))) = [] :=
      purgeOld_drop_all tLater ts hlater
    simp only [check_rate_limit, hlook, hdrop]
    simp [sumCounts]

/-- Sixty strictly increasing integer-valued times 0, 1, ..., 59. -/
def rlDemoTimes : List ℤ := (List.range 60).map (fun n => (n : ℤ))

/-- Concrete instance of `check_rate_limit_window_behavior`: a fresh client
c, calls at times 0..59, a 61st call at time 59.5 inside the window, and a
later call at time 119 after the window has rolled. -/
theorem check_rate_limit_window_behavior_witness :
    (rlLookup "c" cmEmpty.rate_limits = []
      ∧ rlDemoTimes.length = 60
      ∧ rlDemoTimes.Pairwise (fun a b => a < b ∧ b - a < 60)
      ∧ (∀ a ∈ rlDemoTimes, (59 : ℤ) - a < 60)
      ∧ (∀ a ∈ rlDemoTimes, (60 : ℤ) ≤ (119 : ℤ) - a))
    ∧ ((rlRun "c" cmEmpty rlDemoTimes).2 = List.replicate 60 true
      ∧ check_rate_limit (rlRun "c" cmEmpty rlDemoTimes).1 "c" 59
          = ((rlRun "c" cmEmpty rlDemoTimes).1, false)
      ∧ (check_rate_limit (rlRun "c" cmEmpty rlDemoTimes).1 "c" 119).2 = true) :=
  ⟨⟨rfl, by decide, by decide, by decide, by decide⟩,
   check_rate_limit_window_behavior cmEmpty "c" rlDemoTimes 59 119 rfl
     (by decide) (by decide) (by decide) (by decide)⟩

end SentimentQuant
